import Mathlib

/-!
Verification of the record-to-markup rendering pipeline of
`animals_web_generator.py` (My-Zootopia).

The Python values flowing through the core are JSON-shaped: strings,
arrays and string-keyed objects.  `Value` is a shallow embedding of that
fragment (the records the pipeline consumes contain no numbers or
booleans in the fields the core inspects).  Python dictionaries are
modelled as association lists in insertion order, which is exactly the
iteration and key order Python guarantees; the records decoded from JSON
have distinct keys, but none of the definitions below assume it unless
stated.  Fallible Python expressions (attribute errors, index errors,
unhashable keys) are modelled with `Except String`.
-/

/-- JSON-shaped Python value: a string, a list, or a string-keyed dict
(association list in insertion order). -/
inductive Value where
  | vstr : String → Value
  | vlist : List Value → Value
  | vdict : List (String × Value) → Value

/-- First binding of a key in a dict body, mirroring Python dict lookup
(keys are unique in dicts built by the interpreter, so "first" is "the"
binding). -/
def lookupField : List (String × Value) → String → Option Value
  | [], _ => none
  | (k, v) :: rest, key => if k = key then some v else lookupField rest key

/-- Python truthiness of a `Value`: non-empty string / list / dict. -/
def Value.isTruthy : Value → Bool
  | .vstr s => !(s == "")
  | .vlist l => !l.isEmpty
  | .vdict d => !d.isEmpty

mutual

/-- Python `repr` of a `Value` as used inside `str` of containers.
Escaping of quote characters inside strings is not modelled; no claim
depends on it and no string the pipeline builds is fed back to `repr`. -/
def pyRepr : Value → String
  | .vstr s => "'" ++ s ++ "'"
  | .vlist l => "[" ++ pyReprList l ++ "]"
  | .vdict d => "\x7b" ++ pyReprFields d ++ "\x7d"

/-- Comma-separated `repr`s of list elements. -/
def pyReprList : List Value → String
  | [] => ""
  | [v] => pyRepr v
  | v :: rest => pyRepr v ++ ", " ++ pyReprList rest

/-- Comma-separated `'key': repr` pairs of dict entries. -/
def pyReprFields : List (String × Value) → String
  | [] => ""
  | [(k, v)] => "'" ++ k ++ "': " ++ pyRepr v
  | (k, v) :: rest => "'" ++ k ++ "': " ++ pyRepr v ++ ", " ++ pyReprFields rest

end

/-- Python `str()` of a `Value`, as performed by f-string interpolation. -/
def pyStr : Value → String
  | .vstr s => s
  | v => pyRepr v

/-- Python `value.get(key, default)`: returns the stored value or the
default on a dict, and raises `AttributeError` on any non-dict receiver
(only dicts have `.get`). -/
def pyGet (v : Value) (key : String) (default : Value) : Except String Value :=
  match v with
  | .vdict fields => .ok ((lookupField fields key).getD default)
  | _ => .error "AttributeError"

/-- Python `value[0]`: first element of a list, first character of a
string; `IndexError` when empty, `KeyError` on a dict with string keys. -/
def pyIndex0 : Value → Except String Value
  | .vlist (x :: _) => .ok x
  | .vlist [] => .error "IndexError"
  | .vstr s =>
      match s.data with
      | c :: _ => .ok (.vstr (String.mk [c]))
      | [] => .error "IndexError"
  | .vdict _ => .error "KeyError"

/-- The whitespace characters stripped by Python's `str.strip()`
(ASCII subset, which covers console input). -/
def pyWhitespace : List Char := [' ', '\t', '\n', '\r', '\x0b', '\x0c']

/-- Python `str.strip()`: remove leading and trailing whitespace. -/
def pyStrip (s : String) : String :=
  String.mk (((s.data.dropWhile (· ∈ pyWhitespace)).reverse.dropWhile
    (· ∈ pyWhitespace)).reverse)

/-! ## Substring search and replacement (Python `in` and `str.replace`) -/

/-- `pat` occurs at the start of `s`. -/
def isPrefixB : List Char → List Char → Bool
  | [], _ => true
  | _ :: _, [] => false
  | a :: as, b :: bs => a == b && isPrefixB as bs

/-- Python `pat in s` on character lists: `pat` occurs as a contiguous
substring of `s`. -/
def containsSubstrB (pat : List Char) : List Char → Bool
  | [] => isPrefixB pat []
  | c :: t => isPrefixB pat (c :: t) || containsSubstrB pat t

/-- Python `pat in s` on strings. -/
def containsSubstrS (s pat : String) : Bool :=
  containsSubstrB pat.data s.data

/-- Python `s.replace(pat, repl)` for a non-empty `pat`: replace every
leftmost non-overlapping occurrence.  (The empty-pattern special case of
Python is not modelled; the one call site uses the fixed non-empty
placeholder token.) -/
def replaceAllB (pat repl : List Char) (s : List Char) : List Char :=
  match s with
  | [] => []
  | c :: t =>
    if h : pat ≠ [] ∧ isPrefixB pat (c :: t) = true then
      repl ++ replaceAllB pat repl ((c :: t).drop pat.length)
    else
      c :: replaceAllB pat repl t
termination_by s.length
decreasing_by
  · simp only [List.length_drop, List.length_cons]
    have hp : pat.length ≠ 0 := fun hl => h.1 (List.eq_nil_of_length_eq_zero hl)
    omega
  · simp

/-! ## The source functions of `animals_web_generator.py` -/

/-- Modelled from the spec: the placeholder token configured in the
missing `config.py` is `__REPLACE_ANIMALS_INFO__` (spec section 6,
"Template source"). -/
def PLACEHOLDER : String := "__REPLACE_ANIMALS_INFO__"

/-- Modelled from the spec: the grouping attribute configured in the
missing `config.py` is `characteristics` (spec sections 4.6 and 8,
grouping by `characteristics.skin_type`). -/
def ATTRIBUTE : String := "characteristics"

/-- Modelled from the spec: the grouping sub-attribute configured in the
missing `config.py` is `skin_type` (spec sections 4.6 and 8). -/
def SUB_ATTRIBUTE : String := "skin_type"

/-- `replace_placeholder_with_html_content(html, output)`: if the
placeholder does not occur in `html`, report and return `html`
unchanged; otherwise `html.replace(PLACEHOLDER, output)`. -/
def replace_placeholder_with_html_content (html output : String) : String :=
  if !(containsSubstrS html PLACEHOLDER) then
    html
  else
    String.mk (replaceAllB PLACEHOLDER.data output.data html.data)

/-- `indented_line(line, level)`: `"  " * level + line + "\n"`. -/
def indented_line (line : String) (level : Nat) : String :=
  strRepeat "  " level ++ line ++ "\n"
where
  strRepeat (s : String) : Nat → String
    | 0 => ""
    | n + 1 => s ++ strRepeat s n

/-- `format_characteristics(characteristics, location)`: build the
`<ul>` body, one `<li>` per truthy field in the fixed order diet, type,
location, temperament, average_litter_size, lifespan.  The `.get` calls
raise if `characteristics` is not a dict. -/
def format_characteristics (characteristics location : Value) :
    Except String String := do
  let diet ← pyGet characteristics "diet" (.vstr "")
  let animal_type ← pyGet characteristics "type" (.vstr "")
  let temperament ← pyGet characteristics "temperament" (.vstr "")
  let avg_litter_size ← pyGet characteristics "average_litter_size" (.vstr "")
  let lifespan ← pyGet characteristics "lifespan" (.vstr "")
  let output := indented_line "<ul>" 2
  let output := output ++ (if diet.isTruthy then
    indented_line ("<li><strong>Diet:</strong> " ++ pyStr diet ++ "</li>") 3 else "")
  let output := output ++ (if animal_type.isTruthy then
    indented_line ("<li><strong>Type:</strong> " ++ pyStr animal_type ++ "</li>") 3 else "")
  let output := output ++ (if location.isTruthy then
    indented_line ("<li><strong>Location:</strong> " ++ pyStr location ++ "</li>") 3 else "")
  let output := output ++ (if temperament.isTruthy then
    indented_line ("<li><strong>Temperament:</strong> " ++ pyStr temperament ++ "</li>") 3 else "")
  let output := output ++ (if avg_litter_size.isTruthy then
    indented_line ("<li><strong>Average Litter Size:</strong> " ++ pyStr avg_litter_size ++ "</li>") 3 else "")
  let output := output ++ (if lifespan.isTruthy then
    indented_line ("<li><strong>Lifespan:</strong> " ++ pyStr lifespan ++ "</li>") 3 else "")
  pure (output ++ indented_line "</ul>" 2)

/-- `generate_animal_card(name, subtitle, body_html)`: the card markup;
the subtitle line is emitted only when `subtitle` is truthy. -/
def generate_animal_card (name subtitle : Value) (body_html : String) : String :=
  "<li class=\"cards__item\">\n"
  ++ "  <div class=\"card__title\">" ++ pyStr name ++ "</div>\n"
  ++ (if subtitle.isTruthy then
        "  <div class=\"card__subtitle\"><em>" ++ pyStr subtitle ++ "</em></div>\n"
      else "")
  ++ "  <div class=\"card__text\">\n" ++ body_html ++ "</div>\n"
  ++ "</li>\n"

/-- `serialize_animal(animal_obj)`: extract `name`, `characteristics`,
first location and `taxonomy.scientific_name`, then build the card. -/
def serialize_animal (animal_obj : Value) : Except String String := do
  let name ← pyGet animal_obj "name" (.vstr "")
  let characteristics ← pyGet animal_obj "characteristics" (.vdict [])
  let locs ← pyGet animal_obj "locations" (.vlist [])
  let location ← if locs.isTruthy then pyIndex0 locs else pure (.vstr "")
  let taxonomy ← pyGet animal_obj "taxonomy" (.vdict [])
  let scientific_name ← pyGet taxonomy "scientific_name" (.vstr "")
  let body_html ← format_characteristics characteristics location
  pure (generate_animal_card name scientific_name body_html)

/-! ## Grouping (`group_by_attribute`) -/

/-- The grouping key expression of `group_by_attribute`:
`animal.get(attribute, {}).get(sub_attribute, "Unknown")` when a
sub-attribute is given (Python truthiness: non-empty string), else
`animal.get(attribute, "Unknown")`. -/
def groupKey (animal : Value) (attr sub_attr : String) :
    Except String Value :=
  if sub_attr ≠ "" then do
    let outer ← pyGet animal attr (.vdict [])
    pyGet outer sub_attr (.vstr "Unknown")
  else
    pyGet animal attr (.vstr "Unknown")

/-- The grouping key as a dict key: the subsequent dict operations
(`key not in grouped`, `grouped[key]`) hash the key, raising
`TypeError` when it is unhashable.  In the `Value` fragment the
hashable values are exactly the strings. -/
def recordKey (animal : Value) (attr sub_attr : String) :
    Except String String := do
  let key ← groupKey animal attr sub_attr
  match key with
  | .vstr s => pure s
  | _ => .error "TypeError: unhashable type"

/-- Keys of a grouped dict, in insertion order. -/
def keysOf (grouped : List (String × List Value)) : List String :=
  grouped.map Prod.fst

/-- Python `key in grouped`. -/
def containsKey (grouped : List (String × List Value)) (key : String) : Bool :=
  decide (key ∈ keysOf grouped)

/-- Python `grouped[key].append(animal)`: extend the bucket stored under
`key` in place, keeping the dict order. -/
def appendAt (grouped : List (String × List Value)) (key : String)
    (animal : Value) : List (String × List Value) :=
  grouped.map (fun p => if p.1 = key then (p.1, p.2 ++ [animal]) else p)

/-- The loop body of `group_by_attribute`, iterating over the animals
with the accumulated `grouped` dict: compute the key, create the bucket
on first encounter (`grouped[key] = []`), then append the animal. -/
def groupGo (attr sub_attr : String) :
    List Value → List (String × List Value) →
    Except String (List (String × List Value))
  | [], grouped => .ok grouped
  | animal :: rest, grouped => do
      let key ← recordKey animal attr sub_attr
      let grouped := if containsKey grouped key then grouped
                     else grouped ++ [(key, [])]
      groupGo attr sub_attr rest (appendAt grouped key animal)

/-- `group_by_attribute(animals, attribute, sub_attribute)`. -/
def group_by_attribute (animals : List Value)
    (attr sub_attr : String) :
    Except String (List (String × List Value)) :=
  groupGo attr sub_attr animals []

/-- Bucket stored under `key` — Python `grouped[key]`, the first (and in
a dict, only) binding — or `[]` when the key is absent (the call sites
only index after a membership check). -/
def bucketD : List (String × List Value) → String → List Value
  | [], _ => []
  | (k0, b) :: rest, key => if k0 = key then b else bucketD rest key

/-! ## Selection flow and pipeline driver

The interactive functions are embedded as pure functions of the stream
of console inputs they would consume: each `input()` call takes the
next element of the list.  An exhausted list models a session in which
the loop is still waiting for input. -/

/-- The `while True` loop of `get_user_choice_with_answers`: strip the
next input, return it on exact membership in the presented (sorted)
list, otherwise report and re-prompt. -/
def resolveChoice (skin_types : List String) : List String → Option String
  | [] => none
  | raw :: rest =>
      let choice := pyStrip raw
      if choice ∈ skin_types then some choice
      else resolveChoice skin_types rest

/-- Python `sorted` on strings: stable ascending lexicographic sort by
code points (Lean's `List Char` order is exactly that). -/
def pySorted (l : List String) : List String :=
  List.insertionSort (fun a b => a.data ≤ b.data) l

/-- Outcome of `get_user_choice_with_answers`: the key list printed to
the console (empty when the function returned before prompting) and the
returned string (`none` while still blocked on input). -/
structure ChoiceOutcome where
  presented : List String
  result : Option String
  deriving DecidableEq

/-- `get_user_choice_with_answers(skin_types)` applied to a console
input stream: on an empty key list, print and return `""` without
prompting; otherwise sort the keys, present them, and loop until an
input matches. -/
def get_user_choice_with_answers (skin_types : List String)
    (inputs : List String) : ChoiceOutcome :=
  if skin_types.isEmpty then
    ⟨[], some ""⟩
  else
    let sorted := pySorted skin_types
    ⟨sorted, resolveChoice sorted inputs⟩

/-- `generate_html_error_message(query)`. -/
def generate_html_error_message (query : String) : String :=
  "\n  <div class=\"card__error\">\n    <h2>Oops! We couldn't find the animal \"<em>"
  ++ query
  ++ "</em>\".</h2>\n    <p>Please try another name or check your spelling.</p>\n  </div>\n  "

/-- `generate_html_by_filtered_attribute(animal_choice, animal_data,
skin_type)`: the result banner followed by one serialized card per
animal. -/
def generate_html_by_filtered_attribute (animal_choice : String)
    (animal_data : List Value) (skin_type : String) :
    Except String String := do
  let header :=
    "\n  <div class=\"card__result\">\n    <h2>You searched for: <em>"
    ++ animal_choice
    ++ "</em></h2>\n    <p>Filtered by skin type: <strong>"
    ++ skin_type
    ++ "</strong></p>\n  </div>\n  "
  animal_data.foldlM (fun acc animal => do
    let card ← serialize_animal animal
    pure (acc ++ card)) header

/-- Observable outcome of one iteration of the `while True` loop of
`get_filtered_animals_html`: return a page fragment, loop again after
the `"No valid skin types found"` message, loop again after the
`"Invalid skin type selected"` message, or block waiting for more
console input. -/
inductive StepResult where
  | ret (html : String)
  | retryNoSkin
  | retryInvalid
  | blocked
  deriving DecidableEq

/-- One iteration of the loop body of `get_filtered_animals_html`
(lines 286-305), given the animal name already read, the record list
the remote query returned for it, and the console inputs available to
the skin-type prompt. -/
def flowStep (animal_choice : String) (animals : List Value)
    (skin_inputs : List String) : Except String StepResult :=
  if animals.isEmpty then
    .ok (.ret (generate_html_error_message animal_choice))
  else do
    let grouped ← group_by_attribute animals ATTRIBUTE SUB_ATTRIBUTE
    if grouped.isEmpty then
      .ok .retryNoSkin
    else
      match (get_user_choice_with_answers (keysOf grouped) skin_inputs).result with
      | none => .ok .blocked
      | some skin_type =>
          if !(skin_type == "") && containsKey grouped skin_type then do
            let html ← generate_html_by_filtered_attribute animal_choice
              (bucketD grouped skin_type) skin_type
            .ok (.ret html)
          else
            .ok .retryInvalid

/-- The key computed for a record matches `k` and raises nothing. -/
def keyMatches (a : Value) (attr sub_attr k : String) : Bool :=
  match recordKey a attr sub_attr with
  | .ok s => s == k
  | .error _ => false

/-- The keys the records of a list produce, in input order (records
whose key computation raises contribute nothing; when grouping
succeeds, every record contributes). -/
def recordKeysOf (attr sub_attr : String) (animals : List Value) : List String :=
  animals.filterMap (fun a => (recordKey a attr sub_attr).toOption)

/-- First-encounter deduplication of `l`, appended to the already
collected keys `ks`. -/
def dedupInto (ks : List String) : List String → List String
  | [] => ks
  | k :: rest => dedupInto (if k ∈ ks then ks else ks ++ [k]) rest

/-! ## Spec-side definitions used to state the claims -/

/-- Spec-side rendition of section 4.2: the six recognized fields in
their fixed order — diet, type, location, temperament,
average_litter_size, lifespan — keeping exactly the truthy (non-empty)
ones, each rendered as one `<li><strong>Label:</strong> value</li>`
item. -/
def fieldLines (c : List (String × Value)) (location : Value) : List String :=
  (([("Diet", (lookupField c "diet").getD (.vstr "")),
     ("Type", (lookupField c "type").getD (.vstr "")),
     ("Location", location),
     ("Temperament", (lookupField c "temperament").getD (.vstr "")),
     ("Average Litter Size", (lookupField c "average_litter_size").getD (.vstr "")),
     ("Lifespan", (lookupField c "lifespan").getD (.vstr ""))]).filter
       (fun p => p.2.isTruthy)).map
    (fun p => "<li><strong>" ++ p.1 ++ ":</strong> " ++ pyStr p.2 ++ "</li>")

/-- Spec-side extraction of the location `serialize_animal` uses: the
first element of the `locations` sequence, or no location (the empty,
falsy string) when the sequence is absent or empty. -/
def locationUsed (fields : List (String × Value)) : Value :=
  match lookupField fields "locations" with
  | some (.vlist (x :: _)) => x
  | _ => .vstr ""

/-- Spec-side extraction of `taxonomy.scientific_name` with the
defaults `serialize_animal` supplies. -/
def sciNameOf (fields : List (String × Value)) : Value :=
  match lookupField fields "taxonomy" with
  | some (.vdict t) => (lookupField t "scientific_name").getD (.vstr "")
  | _ => .vstr ""

/-- Record A of spec example 2. -/
def recA : Value :=
  .vdict [("name", .vstr "A"), ("characteristics", .vdict [("skin_type", .vstr "Fur")])]

/-- Record B of spec example 2. -/
def recB : Value :=
  .vdict [("name", .vstr "B"), ("characteristics", .vdict [("skin_type", .vstr "Scales")])]

/-- Record C of spec example 2. -/
def recC : Value :=
  .vdict [("name", .vstr "C"), ("characteristics", .vdict [])]

/-- A record whose skin type is the empty string: its grouping key is
the falsy string `""`. -/
def recEmptySkin : Value :=
  .vdict [("characteristics", .vdict [("skin_type", .vstr "")])]

/-- Field list of a fully populated record, used to instantiate
hypotheses on concrete data. -/
def fieldsFox : List (String × Value) :=
  [("name", .vstr "Fox"),
   ("taxonomy", .vdict [("scientific_name", .vstr "Vulpes vulpes")]),
   ("locations", .vlist [.vstr "Europe"]),
   ("characteristics", .vdict [("diet", .vstr "Omnivore")])]

/-- The relation by which Python's `sorted` orders strings: ascending
lexicographic comparison of the code-point sequences. -/
instance strDataLeTotal : IsTotal String (fun a b : String => a.data ≤ b.data) :=
  ⟨fun a b => le_total a.data b.data⟩

instance strDataLeTrans : IsTrans String (fun a b : String => a.data ≤ b.data) :=
  ⟨fun _ _ _ hab hbc => le_trans hab hbc⟩

/-! ## Helper lemmas -/

lemma isPrefixB_nil (r : List Char) : isPrefixB [] r = true := rfl

lemma isPrefixB_append_self (p r : List Char) : isPrefixB p (p ++ r) = true := by
  induction p with
  | nil => rfl
  | cons a as ih => simp [isPrefixB, ih]

lemma containsSubstrB_of_isPrefixB (pat s : List Char)
    (h : isPrefixB pat s = true) : containsSubstrB pat s = true := by
  cases s with
  | nil => simpa [containsSubstrB] using h
  | cons c t => simp [containsSubstrB, h]

lemma contains_of_append (pat l r : List Char) :
    containsSubstrB pat (l ++ pat ++ r) = true := by
  induction l with
  | nil =>
      exact containsSubstrB_of_isPrefixB _ _ (by simpa using isPrefixB_append_self pat r)
  | cons c t ih =>
      simp only [List.cons_append]
      simp [containsSubstrB]
      right
      simpa using ih

lemma replaceAllB_nil (pat repl : List Char) : replaceAllB pat repl [] = [] := by
  rw [replaceAllB]

lemma replaceAllB_head (pat repl u : List Char) (h : pat ≠ []) :
    replaceAllB pat repl (pat ++ u) = repl ++ replaceAllB pat repl u := by
  cases pat with
  | nil => exact absurd rfl h
  | cons p ps =>
      rw [show ((p :: ps) ++ u) = p :: (ps ++ u) from rfl, replaceAllB]
      rw [dif_pos ⟨h, by rw [show (p :: (ps ++ u)) = (p :: ps) ++ u from rfl]; exact isPrefixB_append_self _ _⟩]
      congr 1
      rw [show (p :: (ps ++ u)) = (p :: ps) ++ u from rfl]
      congr 1
      exact List.drop_left _ _

lemma replaceAllB_cons_neg (pat repl : List Char) (c : Char) (t : List Char)
    (h : isPrefixB pat (c :: t) = false) :
    replaceAllB pat repl (c :: t) = c :: replaceAllB pat repl t := by
  rw [replaceAllB, dif_neg]
  intro hco
  rw [hco.2] at h
  exact Bool.noConfusion h

lemma isPrefixB_ex (pat : List Char) : ∀ s, isPrefixB pat s = true → ∃ u, s = pat ++ u := by
  induction pat with
  | nil => exact fun s _ => ⟨s, rfl⟩
  | cons a as ih =>
      intro s h
      cases s with
      | nil => exact absurd h (by simp [isPrefixB])
      | cons b bs =>
          simp only [isPrefixB, Bool.and_eq_true, beq_iff_eq] at h
          obtain ⟨u, hu⟩ := ih bs h.2
          exact ⟨u, by simp [h.1, hu]⟩

lemma replaceAll_decomp (pat repl : List Char) (hne : pat ≠ []) :
    ∀ s, containsSubstrB pat s = true →
    ∃ pre post, s = pre ++ pat ++ post ∧
      replaceAllB pat repl s = pre ++ repl ++ replaceAllB pat repl post := by
  intro s
  induction s with
  | nil =>
      intro h
      cases pat with
      | nil => exact absurd rfl hne
      | cons p ps => exact absurd h (by simp [containsSubstrB, isPrefixB])
  | cons c t ih =>
      intro h
      by_cases hp : isPrefixB pat (c :: t) = true
      · obtain ⟨u, hu⟩ := isPrefixB_ex pat _ hp
        refine ⟨[], u, by simpa using hu, ?_⟩
        rw [hu, replaceAllB_head pat repl u hne]
        simp
      · have hp' : isPrefixB pat (c :: t) = false := by
          cases hx : isPrefixB pat (c :: t) with
          | true => exact absurd hx hp
          | false => rfl
        have hct : containsSubstrB pat t = true := by
          simpa [containsSubstrB, hp'] using h
        obtain ⟨pre, post, h1, h2⟩ := ih hct
        refine ⟨c :: pre, post, by simp [h1], ?_⟩
        rw [replaceAllB_cons_neg pat repl c t hp', h2]
        simp

lemma data_empty : ("" : String).data = [] := rfl

lemma data_nl : ("\n" : String).data = ['\n'] := rfl

lemma strRepeat_data (n : Nat) :
    (indented_line.strRepeat "  " n).data = List.replicate (2 * n) ' ' := by
  induction n with
  | zero => rfl
  | succ k ih =>
      show (("  " : String) ++ indented_line.strRepeat "  " k).data = _
      rw [String.data_append, ih, show ("  " : String).data = [' ', ' '] from rfl,
        show 2 * (k + 1) = 2 * k + 1 + 1 by omega]
      simp [List.replicate_succ]

lemma format_characteristics_vdict (c : List (String × Value)) (loc : Value) :
    format_characteristics (.vdict c) loc =
      .ok (indented_line "<ul>" 2
        ++ String.join ((fieldLines c loc).map (fun s => indented_line s 3))
        ++ indented_line "</ul>" 2) := by
  simp only [format_characteristics, pyGet, Bind.bind, Except.bind, fieldLines,
    List.filter_cons, List.filter_nil, String.join, pure, Except.pure, Except.ok.injEq]
  split_ifs <;>
    (apply String.ext; simp [String.data_append, data_empty, List.foldl])

lemma card_eq (name sub : Value) (body : String) :
    generate_animal_card name sub body =
      "<li class=\"cards__item\">\n  <div class=\"card__title\">" ++ pyStr name ++ "</div>\n"
      ++ (if sub.isTruthy then
            "  <div class=\"card__subtitle\"><em>" ++ pyStr sub ++ "</em></div>\n"
          else "")
      ++ "  <div class=\"card__text\">\n" ++ body ++ "</div>\n</li>\n" := by
  unfold generate_animal_card
  split_ifs <;> (apply String.ext; simp [String.data_append, data_empty])

lemma pyGet_vdict (fs : List (String × Value)) (k : String) (d : Value) :
    pyGet (.vdict fs) k d = .ok ((lookupField fs k).getD d) := rfl

/-! ## Properties of the grouping engine -/

lemma appendAt_cons (k0 : String) (b0 : List Value) (rest : List (String × List Value))
    (key : String) (a : Value) :
    appendAt ((k0, b0) :: rest) key a
      = (if k0 = key then (k0, b0 ++ [a]) else (k0, b0)) :: appendAt rest key a := by
  by_cases h0 : k0 = key <;> simp [appendAt, h0]

lemma bucketD_cons (k0 : String) (b0 : List Value) (rest : List (String × List Value))
    (k : String) : bucketD ((k0, b0) :: rest) k = if k0 = k then b0 else bucketD rest k := rfl

lemma keysOf_cons (k0 : String) (b0 : List Value) (rest : List (String × List Value)) :
    keysOf ((k0, b0) :: rest) = k0 :: keysOf rest := rfl

lemma keysOf_appendAt (g : List (String × List Value)) (key : String) (a : Value) :
    keysOf (appendAt g key a) = keysOf g := by
  induction g with
  | nil => rfl
  | cons p rest ih =>
      obtain ⟨k0, b0⟩ := p
      rw [appendAt_cons]
      by_cases h0 : k0 = key <;> simp [h0, keysOf_cons, ih]

lemma appendAt_of_not_mem (g : List (String × List Value)) (key : String) (a : Value)
    (h : key ∉ keysOf g) : appendAt g key a = g := by
  induction g with
  | nil => rfl
  | cons p rest ih =>
      obtain ⟨k0, b0⟩ := p
      rw [keysOf_cons, List.mem_cons, not_or] at h
      rw [appendAt_cons, if_neg (fun he => h.1 he.symm), ih h.2]

lemma bucketD_appendAt_ne (g : List (String × List Value)) (key k : String) (a : Value)
    (h : k ≠ key) : bucketD (appendAt g key a) k = bucketD g k := by
  induction g with
  | nil => rfl
  | cons p rest ih =>
      obtain ⟨k0, b0⟩ := p
      rw [appendAt_cons]
      by_cases h0 : k0 = key
      · rw [if_pos h0, bucketD_cons, bucketD_cons,
          if_neg (h0 ▸ fun he => h he.symm), if_neg (h0 ▸ fun he => h he.symm), ih]
      · rw [if_neg h0, bucketD_cons, bucketD_cons]
        by_cases hk : k0 = k
        · rw [if_pos hk, if_pos hk]
        · rw [if_neg hk, if_neg hk, ih]

lemma bucketD_appendAt_self (g : List (String × List Value)) (key : String) (a : Value)
    (h : key ∈ keysOf g) : bucketD (appendAt g key a) key = bucketD g key ++ [a] := by
  induction g with
  | nil => simp [keysOf] at h
  | cons p rest ih =>
      obtain ⟨k0, b0⟩ := p
      rw [appendAt_cons]
      by_cases h0 : k0 = key
      · rw [if_pos h0, bucketD_cons, bucketD_cons, if_pos h0, if_pos h0]
      · rw [keysOf_cons, List.mem_cons] at h
        rcases h with h | h
        · exact absurd h.symm h0
        · rw [if_neg h0, bucketD_cons, bucketD_cons, if_neg h0, if_neg h0, ih h]

lemma bucketD_append_empty (g : List (String × List Value)) (key k : String) :
    bucketD (g ++ [(key, [])]) k = bucketD g k := by
  induction g with
  | nil =>
      rw [List.nil_append, bucketD_cons]
      split <;> rfl
  | cons p rest ih =>
      obtain ⟨k0, b0⟩ := p
      rw [List.cons_append, bucketD_cons, bucketD_cons]
      split <;> simp [ih]

lemma flatten_appendAt (g : List (String × List Value)) (key : String) (a : Value)
    (hmem : key ∈ keysOf g) (hnd : (keysOf g).Nodup) :
    ((appendAt g key a).map Prod.snd).flatten.Perm
      ((g.map Prod.snd).flatten ++ [a]) := by
  induction g with
  | nil => simp [keysOf] at hmem
  | cons p rest ih =>
      obtain ⟨k0, b0⟩ := p
      rw [keysOf_cons, List.nodup_cons] at hnd
      rw [appendAt_cons]
      by_cases h0 : k0 = key
      · subst h0
        rw [if_pos rfl, appendAt_of_not_mem rest k0 a hnd.1]
        simp only [List.map_cons, List.flatten_cons]
        have hp := List.Perm.append_left b0
          (@List.perm_append_comm _ [a] ((rest.map Prod.snd).flatten))
        simpa [List.append_assoc] using hp
      · rw [keysOf_cons, List.mem_cons] at hmem
        rcases hmem with hmem | hmem
        · exact absurd hmem.symm h0
        · rw [if_neg h0]
          simp only [List.map_cons, List.flatten_cons]
          have hp := List.Perm.append_left b0 (ih hmem hnd.2)
          simpa [List.append_assoc] using hp

lemma recordKeysOf_cons_ok (attr sub_attr : String) (a : Value) (rest : List Value)
    (s : String) (hk : recordKey a attr sub_attr = .ok s) :
    recordKeysOf attr sub_attr (a :: rest) = s :: recordKeysOf attr sub_attr rest := by
  simp [recordKeysOf, List.filterMap_cons, hk, Except.toOption]

/-- Master characterization of the grouping loop: starting from an
accumulator with distinct keys, a successful run has distinct keys, its
key list extends the accumulator's by the first encounters of the
records' keys, its contents are the accumulator's plus the records
(as a multiset), and every bucket extends the accumulator's bucket by
exactly the records whose key matches, in input order. -/

lemma groupGo_spec (attr sub_attr : String) :
    ∀ (animals : List Value) (acc g : List (String × List Value)),
    (keysOf acc).Nodup →
    groupGo attr sub_attr animals acc = .ok g →
    (keysOf g).Nodup ∧
    keysOf g = dedupInto (keysOf acc) (recordKeysOf attr sub_attr animals) ∧
    ((g.map Prod.snd).flatten).Perm ((acc.map Prod.snd).flatten ++ animals) ∧
    (∀ k, bucketD g k
      = bucketD acc k ++ animals.filter (fun a => keyMatches a attr sub_attr k)) := by
  intro animals
  induction animals with
  | nil =>
      intro acc g hnd h
      simp only [groupGo] at h
      cases h
      exact ⟨hnd, by simp [recordKeysOf, dedupInto], by simp, fun k => by simp⟩
  | cons a rest ih =>
      intro acc g hnd h
      cases hk : recordKey a attr sub_attr with
      | error e =>
          rw [groupGo] at h
          simp [hk, Bind.bind, Except.bind] at h
      | ok s =>
          rw [groupGo] at h
          simp only [hk, Bind.bind, Except.bind] at h
          by_cases hmem : s ∈ keysOf acc
          · rw [if_pos (by simpa [containsKey] using hmem)] at h
            have hnd2 : (keysOf (appendAt acc s a)).Nodup := by
              rw [keysOf_appendAt]; exact hnd
            obtain ⟨nd, keq, perm, buck⟩ := ih (appendAt acc s a) g hnd2 h
            refine ⟨nd, ?_, ?_, ?_⟩
            · rw [keq, keysOf_appendAt, recordKeysOf_cons_ok attr sub_attr a rest s hk,
                dedupInto, if_pos hmem]
            · refine perm.trans ?_
              have hp := List.Perm.append_right rest (flatten_appendAt acc s a hmem hnd)
              refine hp.trans ?_
              simp [List.append_assoc]
            · intro k
              rw [buck k]
              by_cases hks : s = k
              · subst hks
                rw [bucketD_appendAt_self acc s a hmem,
                  List.filter_cons_of_pos (by simp [keyMatches, hk])]
                simp [List.append_assoc]
              · rw [bucketD_appendAt_ne acc s k a (fun he => hks he.symm),
                  List.filter_cons_of_neg (by simp [keyMatches, hk, hks])]
          · rw [if_neg (by simpa [containsKey] using hmem)] at h
            have hkeys1 : keysOf (acc ++ [(s, [])]) = keysOf acc ++ [s] := by
              simp [keysOf]
            have hnd1 : (keysOf (acc ++ [(s, [])])).Nodup := by
              rw [hkeys1]
              simpa [List.nodup_append, hmem] using hnd
            have hmem1 : s ∈ keysOf (acc ++ [(s, [])]) := by simp [hkeys1]
            have hnd2 : (keysOf (appendAt (acc ++ [(s, [])]) s a)).Nodup := by
              rw [keysOf_appendAt]; exact hnd1
            obtain ⟨nd, keq, perm, buck⟩ := ih _ g hnd2 h
            refine ⟨nd, ?_, ?_, ?_⟩
            · rw [keq, keysOf_appendAt, hkeys1,
                recordKeysOf_cons_ok attr sub_attr a rest s hk, dedupInto, if_neg hmem]
            · refine perm.trans ?_
              have hp := List.Perm.append_right rest
                (flatten_appendAt (acc ++ [(s, [])]) s a hmem1 hnd1)
              refine hp.trans ?_
              simp [List.append_assoc]
            · intro k
              rw [buck k]
              by_cases hks : s = k
              · subst hks
                rw [bucketD_appendAt_self _ s a hmem1, bucketD_append_empty,
                  List.filter_cons_of_pos (by simp [keyMatches, hk])]
                simp [List.append_assoc]
              · rw [bucketD_appendAt_ne _ s k a (fun he => hks he.symm),
                  bucketD_append_empty,
                  List.filter_cons_of_neg (by simp [keyMatches, hk, hks])]

lemma mem_bucketD (g : List (String × List Value)) (k : String) (b : List Value)
    (hnd : (keysOf g).Nodup) (hmem : (k, b) ∈ g) : bucketD g k = b := by
  induction g with
  | nil => simp at hmem
  | cons p rest ih =>
      obtain ⟨k0, b0⟩ := p
      rw [keysOf_cons, List.nodup_cons] at hnd
      rw [List.mem_cons] at hmem
      rcases hmem with hmem | hmem
      · obtain ⟨hk, hb⟩ := Prod.mk.injEq k b k0 b0 ▸ hmem
        rw [bucketD_cons, if_pos hk.symm, hb]
      · have hk0 : k0 ≠ k := by
          intro he
          subst he
          exact hnd.1 (by simpa [keysOf] using List.mem_map_of_mem Prod.fst hmem)
        rw [bucketD_cons, if_neg hk0]
        exact ih hnd.2 hmem

lemma resolveChoice_mem (st : List String) :
    ∀ (inputs : List String) (r : String), resolveChoice st inputs = some r → r ∈ st := by
  intro inputs
  induction inputs with
  | nil => intro r h; exact Option.noConfusion h
  | cons raw rest ih =>
      intro r h
      rw [resolveChoice] at h
      by_cases hm : pyStrip raw ∈ st
      · rw [if_pos hm] at h
        cases h
        exact hm
      · rw [if_neg hm] at h
        exact ih r h

/-! ## The claims -/

/-- C1 (as amended): `replace_placeholder_with_html_content` replaces
every occurrence of the placeholder, not exactly one: when the template
contains no occurrence it is returned unchanged, and when it contains
one the result decomposes as `pre ++ content ++ rest-with-replacements`
along a decomposition `template = pre ++ PLACEHOLDER ++ post`. -/
theorem C1_substitute_replaces_every_occurrence :
    (∀ html output, containsSubstrS html PLACEHOLDER = false →
       replace_placeholder_with_html_content html output = html) ∧
    (∀ html output, containsSubstrS html PLACEHOLDER = true →
       ∃ pre post : List Char,
         html.data = pre ++ PLACEHOLDER.data ++ post ∧
         (replace_placeholder_with_html_content html output).data =
           pre ++ output.data ++ replaceAllB PLACEHOLDER.data output.data post) := by
  constructor
  · intro html output h
    simp [replace_placeholder_with_html_content, h]
  · intro html output h
    have hne : PLACEHOLDER.data ≠ [] := by decide
    obtain ⟨pre, post, h1, h2⟩ :=
      replaceAll_decomp PLACEHOLDER.data output.data hne html.data
        (by simpa [containsSubstrS] using h)
    refine ⟨pre, post, h1, ?_⟩
    simpa [replace_placeholder_with_html_content, h] using h2

/-- Witness for C1: both hypotheses discharged on concrete templates. -/
theorem C1_substitute_witness :
    (replace_placeholder_with_html_content "abc" "X" = "abc") ∧
    (∃ pre post : List Char,
       ("a" ++ PLACEHOLDER ++ "b").data = pre ++ PLACEHOLDER.data ++ post ∧
       (replace_placeholder_with_html_content ("a" ++ PLACEHOLDER ++ "b") "X").data =
         pre ++ "X".data ++ replaceAllB PLACEHOLDER.data "X".data post) :=
  ⟨C1_substitute_replaces_every_occurrence.1 "abc" "X" (by decide), C1_substitute_replaces_every_occurrence.2 ("a" ++ PLACEHOLDER ++ "b") "X" (by decide)⟩

/-- Counterexample to C1 as stated: on a template that is two adjacent
placeholder occurrences, the result replaces both, so it admits no
decomposition `pre ++ content ++ post` of the template with exactly the
one placeholder occurrence replaced (a length count rules it out). -/
theorem C1_substitute_counterexample :
    ¬ ∃ pre post : List Char,
        (PLACEHOLDER ++ PLACEHOLDER).data = pre ++ PLACEHOLDER.data ++ post ∧
        (replace_placeholder_with_html_content (PLACEHOLDER ++ PLACEHOLDER) "x").data
          = pre ++ "x".data ++ post := by
  rintro ⟨pre, post, h1, h2⟩
  have hself : ∀ (repl : List Char), replaceAllB PLACEHOLDER.data repl PLACEHOLDER.data = repl := by
    intro repl
    have h0 := replaceAllB_head PLACEHOLDER.data repl [] (by decide)
    simpa [replaceAllB_nil] using h0
  have hres : (replace_placeholder_with_html_content (PLACEHOLDER ++ PLACEHOLDER) "x").data
      = "x".data ++ "x".data := by
    have hc : containsSubstrS (PLACEHOLDER ++ PLACEHOLDER) PLACEHOLDER = true := by decide
    simp only [replace_placeholder_with_html_content, hc, Bool.not_true, Bool.false_eq_true,
      if_false]
    show replaceAllB PLACEHOLDER.data "x".data (PLACEHOLDER ++ PLACEHOLDER).data = _
    rw [String.data_append]
    rw [replaceAllB_head _ _ _ (by decide)]
    rw [hself]
  rw [hres] at h2
  have l1 := congrArg List.length h1
  have l2 := congrArg List.length h2
  have hP : PLACEHOLDER.data.length = 24 := by decide
  have hx : ("x" : String).data.length = 1 := by decide
  have hPP : (PLACEHOLDER ++ PLACEHOLDER).data.length = 48 := by decide
  simp [List.length_append, hP, hx, hPP] at l1 l2
  omega

/-- C2 (as amended): the accessor pattern returns the caller-supplied
default whenever the intermediate key is missing, and the grouping key
of a record without the attribute is the sentinel `"Unknown"`; it never
raises for a missing key. -/
theorem C2_accessor_default_on_missing_key (fields : List (String × Value)) (attr sub_attr : String) (d : Value)
    (h : lookupField fields attr = none) :
    pyGet (.vdict fields) attr d = .ok d ∧
    groupKey (.vdict fields) attr sub_attr = .ok (.vstr "Unknown") := by
  constructor
  · simp [pyGet, h]
  · by_cases hs : sub_attr = ""
    · simp [groupKey, hs, pyGet, h]
    · simp [groupKey, hs, pyGet, h, lookupField]
      rfl

/-- Witness for C2 on a record without a `characteristics` key. -/
theorem C2_accessor_witness :
    lookupField [("name", Value.vstr "A")] "characteristics" = none ∧
    groupKey (.vdict [("name", Value.vstr "A")]) "characteristics" "skin_type"
      = .ok (.vstr "Unknown") :=
  ⟨rfl, (C2_accessor_default_on_missing_key [("name", Value.vstr "A")] "characteristics" "skin_type" (.vstr "") rfl).2⟩

/-- Counterexample to C2 as stated: when the intermediate key is
present but its value is not a mapping, both the grouping accessor and
the serialization accessor raise `AttributeError` instead of returning
the default. -/
theorem C2_accessor_counterexample :
    group_by_attribute [Value.vdict [("characteristics", Value.vstr "Fur")]]
      "characteristics" "skin_type" = .error "AttributeError" ∧
    serialize_animal (.vdict [("name", Value.vstr "X"), ("taxonomy", Value.vstr "Vulpes")])
      = .error "AttributeError" := ⟨rfl, rfl⟩

/-- C3: a successful `group_by_attribute` run is a partition of its
input: the buckets' multiset union is the input, bucket keys are
distinct (no record occurrence lands twice), keys appear in order of
first encounter, each bucket is the input filtered to its key (hence in
input order), and empty input yields the empty mapping. -/
theorem C3_grouping_partition (animals : List Value) (attr sub_attr : String)
    (g : List (String × List Value))
    (h : group_by_attribute animals attr sub_attr = .ok g) :
    ((g.map Prod.snd).flatten).Perm animals ∧
    (keysOf g).Nodup ∧
    keysOf g = dedupInto [] (recordKeysOf attr sub_attr animals) ∧
    (∀ k b, (k, b) ∈ g → b = animals.filter (fun a => keyMatches a attr sub_attr k)) ∧
    (animals = [] → g = []) := by
  obtain ⟨nd, keq, perm, buck⟩ :=
    groupGo_spec attr sub_attr animals [] g (by simp [keysOf]) h
  refine ⟨by simpa using perm, nd, keq, ?_, ?_⟩
  · intro k b hmem
    have hb := mem_bucketD g k b nd hmem
    rw [← hb, buck k]
    simp [bucketD]
  · intro he
    subst he
    simp only [group_by_attribute, groupGo] at h
    cases h
    rfl

/-- Witness for C3 on a one-record grouping. -/
theorem C3_grouping_partition_witness :
    (([("Fur", [recA])].map Prod.snd).flatten).Perm [recA] ∧
    (∀ k b, (k, b) ∈ [("Fur", [recA])] →
       b = [recA].filter (fun a => keyMatches a "characteristics" "skin_type" k)) :=
  ⟨(C3_grouping_partition [recA] "characteristics" "skin_type" [("Fur", [recA])] rfl).1,
   (C3_grouping_partition [recA] "characteristics" "skin_type" [("Fur", [recA])] rfl).2.2.2.1⟩

/-- C4: a record whose grouping attribute (or sub-attribute inside it)
is missing is assigned to the `"Unknown"` bucket, and grouping the three
records of spec example 2 by `characteristics.skin_type` yields exactly
the buckets Fur = [A], Scales = [B], Unknown = [C]. -/
theorem C4_unknown_bucket :
    (∀ (animals : List Value) (attr sub_attr : String) (g : List (String × List Value))
       (a : Value) (fields : List (String × Value)),
       group_by_attribute animals attr sub_attr = .ok g →
       a ∈ animals → a = .vdict fields →
       (lookupField fields attr = none ∨
        (sub_attr ≠ "" ∧ ∃ inner, lookupField fields attr = some (.vdict inner) ∧
          lookupField inner sub_attr = none)) →
       a ∈ bucketD g "Unknown") ∧
    group_by_attribute [recA, recB, recC] "characteristics" "skin_type"
      = .ok [("Fur", [recA]), ("Scales", [recB]), ("Unknown", [recC])] := by
  constructor
  · intro animals attr sub_attr g a fields h ha hdict hmiss
    have hkey : recordKey a attr sub_attr = .ok "Unknown" := by
      subst hdict
      rcases hmiss with hnone | ⟨hs, inner, hsome, hinner⟩
      · by_cases hsub : sub_attr = "" <;>
          simp [recordKey, groupKey, hsub, pyGet, hnone, Bind.bind, Except.bind,
            pure, lookupField, Except.pure]
      · simp [recordKey, groupKey, hs, pyGet, hsome, hinner, Bind.bind, Except.bind,
            pure, Except.pure]
    obtain ⟨nd, keq, perm, buck⟩ :=
      groupGo_spec attr sub_attr animals [] g (by simp [keysOf]) h
    rw [buck "Unknown"]
    simp only [bucketD, List.nil_append]
    exact List.mem_filter.mpr ⟨ha, by simp [keyMatches, hkey]⟩
  · rfl

/-- Witness for C4: record C of the example lands in `"Unknown"`. -/
theorem C4_unknown_bucket_witness : recC ∈ bucketD [("Unknown", [recC])] "Unknown" :=
  C4_unknown_bucket.1 [recC] "characteristics" "skin_type" [("Unknown", [recC])] recC
    [("name", .vstr "C"), ("characteristics", .vdict [])] rfl (by simp) rfl
    (Or.inr ⟨by simp, [], rfl, rfl⟩)

/-- C5: `format_characteristics` of a characteristics mapping and a
location renders exactly the `<ul>` wrapper around one indented list
item per truthy field, in the fixed order diet, type, location,
temperament, average_litter_size, lifespan, and no item for an absent
or empty field (the right-hand side is the spec-side `fieldLines`). -/
theorem C5_field_lines (c : List (String × Value)) (loc : Value) :
    format_characteristics (.vdict c) loc =
      .ok (indented_line "<ul>" 2
        ++ String.join ((fieldLines c loc).map (fun s => indented_line s 3))
        ++ indented_line "</ul>" 2) :=
  format_characteristics_vdict c loc

/-- C6: `serialize_animal` on a record (whose `locations`, if present,
is a sequence) always emits the title line with the record's name, the
emphasised subtitle line exactly when the extracted scientific name is
truthy, and hands `format_characteristics` exactly the first element of
`locations` (no location when absent or empty). -/
theorem C6_serialize_animal_structure (fields : List (String × Value)) (out : String)
    (hser : serialize_animal (.vdict fields) = .ok out)
    (hloc : lookupField fields "locations" = none ∨
            ∃ l, lookupField fields "locations" = some (.vlist l)) :
    ∃ body,
      format_characteristics ((lookupField fields "characteristics").getD (.vdict []))
        (locationUsed fields) = .ok body ∧
      out = "<li class=\"cards__item\">\n  <div class=\"card__title\">"
        ++ pyStr ((lookupField fields "name").getD (.vstr "")) ++ "</div>\n"
        ++ (if (sciNameOf fields).isTruthy then
              "  <div class=\"card__subtitle\"><em>" ++ pyStr (sciNameOf fields)
                ++ "</em></div>\n"
            else "")
        ++ "  <div class=\"card__text\">\n" ++ body ++ "</div>\n</li>\n" := by
  have hcore : ∀ (locV : Value),
      locationUsed fields = locV →
      ((pyGet ((lookupField fields "taxonomy").getD (Value.vdict [])) "scientific_name"
          (Value.vstr "")).bind (fun scientific_name =>
        (format_characteristics ((lookupField fields "characteristics").getD (Value.vdict []))
          locV).bind (fun body_html =>
          Except.ok (generate_animal_card ((lookupField fields "name").getD (Value.vstr ""))
            scientific_name body_html))) = Except.ok out) →
      ∃ body,
        format_characteristics ((lookupField fields "characteristics").getD (Value.vdict []))
          (locationUsed fields) = Except.ok body ∧
        out = "<li class=\"cards__item\">\n  <div class=\"card__title\">"
          ++ pyStr ((lookupField fields "name").getD (Value.vstr "")) ++ "</div>\n"
          ++ (if (sciNameOf fields).isTruthy then
                "  <div class=\"card__subtitle\"><em>" ++ pyStr (sciNameOf fields)
                  ++ "</em></div>\n"
              else "")
          ++ "  <div class=\"card__text\">\n" ++ body ++ "</div>\n</li>\n" := by
    intro locV hlu htail
    have hsci : pyGet ((lookupField fields "taxonomy").getD (Value.vdict []))
        "scientific_name" (Value.vstr "") = Except.ok (sciNameOf fields) := by
      cases htax : lookupField fields "taxonomy" with
      | none => simp [htax, pyGet, sciNameOf, lookupField]
      | some v =>
          cases v with
          | vdict t => simp [htax, pyGet, sciNameOf]
          | vstr s =>
              rw [htax] at htail
              simp [pyGet, Except.bind] at htail
          | vlist l2 =>
              rw [htax] at htail
              simp [pyGet, Except.bind] at htail
    rw [hsci] at htail
    simp only [Except.bind] at htail
    cases hf : format_characteristics
        ((lookupField fields "characteristics").getD (Value.vdict [])) locV with
    | error e => rw [hf] at htail; simp at htail
    | ok body =>
        rw [hf] at htail
        simp only [Except.ok.injEq] at htail
        refine ⟨body, by rw [hlu]; exact hf, ?_⟩
        rw [← htail, card_eq]
  simp only [serialize_animal, pyGet_vdict, Bind.bind, Except.bind, pure] at hser
  rcases hloc with hnone | ⟨l, hsome⟩
  · rw [hnone] at hser
    simp only [Option.getD_none, Value.isTruthy, List.isEmpty_nil, Bool.not_true,
      Bool.false_eq_true, if_false] at hser
    exact hcore (Value.vstr "") (by simp [locationUsed, hnone]) (by
      simpa [Except.bind] using hser)
  · rw [hsome] at hser
    cases l with
    | nil =>
        simp only [Option.getD_some, Value.isTruthy, List.isEmpty_nil, Bool.not_true,
          Bool.false_eq_true, if_false] at hser
        exact hcore (Value.vstr "") (by simp [locationUsed, hsome]) (by
          simpa [Except.bind] using hser)
    | cons x xs =>
        simp only [Option.getD_some, Value.isTruthy, List.isEmpty_cons, Bool.not_false,
          if_true, pyIndex0] at hser
        exact hcore x (by simp [locationUsed, hsome]) (by
          simpa [Except.bind] using hser)

/-- Witness for C6 on a fully populated record. -/
theorem C6_serialize_animal_witness :
    ∃ out, serialize_animal (.vdict fieldsFox) = Except.ok out ∧
      ∃ body,
        format_characteristics
          ((lookupField fieldsFox "characteristics").getD (.vdict []))
          (locationUsed fieldsFox) = .ok body ∧
        out = "<li class=\"cards__item\">\n  <div class=\"card__title\">"
          ++ pyStr ((lookupField fieldsFox "name").getD (.vstr "")) ++ "</div>\n"
          ++ (if (sciNameOf fieldsFox).isTruthy then
                "  <div class=\"card__subtitle\"><em>" ++ pyStr (sciNameOf fieldsFox)
                  ++ "</em></div>\n"
              else "")
          ++ "  <div class=\"card__text\">\n" ++ body ++ "</div>\n</li>\n" :=
  ⟨_, rfl, C6_serialize_animal_structure fieldsFox _ rfl
    (Or.inr ⟨[.vstr "Europe"], rfl⟩)⟩

/-- C7: `indented_line` prefixes exactly two spaces per level and
suffixes a newline, and `format_characteristics` emits the `<ul>` and
`</ul>` tags at depth 2 with every list item at depth 3. -/
theorem C7_structural_indentation :
    (∀ (line : String) (level : Nat),
       (indented_line line level).data =
         List.replicate (2 * level) ' ' ++ line.data ++ ['\n']) ∧
    (∀ (c : List (String × Value)) (loc : Value),
       format_characteristics (.vdict c) loc =
         .ok (indented_line "<ul>" 2
           ++ String.join ((fieldLines c loc).map (fun s => indented_line s 3))
           ++ indented_line "</ul>" 2)) := by
  constructor
  · intro line level
    simp [indented_line, String.data_append, strRepeat_data, data_nl]
  · exact format_characteristics_vdict

/-- C8: when the remote query returned no records, one iteration of
`get_filtered_animals_html` returns the error banner naming the query,
whatever console input is available (grouping and selection are never
consulted), and the banner contains no animal-card fragment. -/
theorem C8_empty_query_error_banner :
    (∀ (choice : String) (inputs : List String),
       flowStep choice [] inputs = .ok (.ret (generate_html_error_message choice))) ∧
    (∀ choice : String,
       containsSubstrS (generate_html_error_message choice) choice = true) ∧
    containsSubstrS (generate_html_error_message "fox") "<li class=\"cards__item\">"
      = false := by
  refine ⟨fun choice inputs => rfl, ?_, by decide⟩
  intro choice
  unfold generate_html_error_message containsSubstrS
  rw [String.data_append, String.data_append]
  exact contains_of_append choice.data _ _

/-- C9: `get_user_choice_with_answers` presents the keys sorted
lexicographically ascending (by code points), returns only exact
members of the key set, consumes (re-prompts on) any non-matching
input, and on an empty key set returns `""` without presenting
anything. -/
theorem C9_selection_flow :
    (∀ inputs : List String,
       get_user_choice_with_answers [] inputs = ⟨[], some ""⟩) ∧
    (∀ (skin_types inputs : List String),
       skin_types ≠ [] →
       (get_user_choice_with_answers skin_types inputs).presented.Sorted
           (fun a b : String => a.data ≤ b.data) ∧
       (get_user_choice_with_answers skin_types inputs).presented.Perm skin_types ∧
       (∀ r, (get_user_choice_with_answers skin_types inputs).result = some r →
          r ∈ skin_types)) ∧
    (∀ (skin_types : List String) (raw : String) (rest : List String),
       skin_types ≠ [] → pyStrip raw ∉ pySorted skin_types →
       get_user_choice_with_answers skin_types (raw :: rest)
         = get_user_choice_with_answers skin_types rest) := by
  refine ⟨fun inputs => rfl, ?_, ?_⟩
  · intro skin_types inputs hne
    have hie : skin_types.isEmpty = false := by simpa [List.isEmpty_iff] using hne
    have hperm : (pySorted skin_types).Perm skin_types :=
      List.perm_insertionSort _ skin_types
    refine ⟨?_, ?_, ?_⟩
    · simp only [get_user_choice_with_answers, hie, Bool.false_eq_true, if_false]
      exact List.sorted_insertionSort _ skin_types
    · simp only [get_user_choice_with_answers, hie, Bool.false_eq_true, if_false]
      exact hperm
    · intro r hr
      simp only [get_user_choice_with_answers, hie, Bool.false_eq_true, if_false] at hr
      exact hperm.mem_iff.mp (resolveChoice_mem _ inputs r hr)
  · intro skin_types raw rest hne hnm
    have hie : skin_types.isEmpty = false := by simpa [List.isEmpty_iff] using hne
    simp only [get_user_choice_with_answers, hie, Bool.false_eq_true, if_false,
      resolveChoice, if_neg hnm]

/-- Witness for C9 on concrete key sets and input streams. -/
theorem C9_selection_flow_witness :
    (get_user_choice_with_answers [] ["x"] = ⟨[], some ""⟩) ∧
    (∀ r, (get_user_choice_with_answers ["b", "a"] ["q", "b"]).result = some r →
       r ∈ ["b", "a"]) ∧
    (get_user_choice_with_answers ["b"] ["q", "b"]
       = get_user_choice_with_answers ["b"] ["b"]) :=
  ⟨C9_selection_flow.1 ["x"],
   fun r hr => (C9_selection_flow.2.1 ["b", "a"] ["q", "b"] (by simp)).2.2 r hr,
   C9_selection_flow.2.2 ["b"] "q" ["b"] (by simp) (by decide)⟩

/-- C10 (as amended): a successful grouping of a non-empty record list
is non-empty, so no successful loop iteration ever takes the
`"No valid skin types found"` retry branch; the
`"Invalid skin type selected"` branch however remains reachable. -/
theorem C10_nonempty_grouping :
    (∀ (animals : List Value) (attr sub_attr : String)
       (g : List (String × List Value)),
       group_by_attribute animals attr sub_attr = .ok g → animals ≠ [] → g ≠ []) ∧
    (∀ (choice : String) (animals : List Value) (inputs : List String)
       (r : StepResult),
       flowStep choice animals inputs = .ok r → r ≠ .retryNoSkin) := by
  have hne : ∀ (animals : List Value) (attr sub_attr : String)
      (g : List (String × List Value)),
      group_by_attribute animals attr sub_attr = .ok g → animals ≠ [] → g ≠ [] := by
    intro animals attr sub_attr g h hanim hg
    obtain ⟨nd, keq, perm, buck⟩ :=
      groupGo_spec attr sub_attr animals [] g (by simp [keysOf]) h
    subst hg
    have hpn : ([] : List Value).Perm animals := by simpa using perm
    exact hanim hpn.symm.eq_nil
  refine ⟨hne, ?_⟩
  intro choice animals inputs r h hr
  subst hr
  unfold flowStep at h
  by_cases ha : animals.isEmpty
  · rw [if_pos ha] at h
    simp at h
  · rw [if_neg ha] at h
    simp only [Bind.bind, Except.bind] at h
    cases hg : group_by_attribute animals ATTRIBUTE SUB_ATTRIBUTE with
    | error e =>
        simp only [hg] at h
        exact Except.noConfusion h
    | ok grouped =>
        simp only [hg] at h
        have hgne : grouped ≠ [] :=
          hne animals ATTRIBUTE SUB_ATTRIBUTE grouped hg
            (by simpa [List.isEmpty_iff] using ha)
        rw [if_neg (by simpa [List.isEmpty_iff] using hgne)] at h
        cases hc : (get_user_choice_with_answers (keysOf grouped) inputs).result with
        | none =>
            simp only [hc] at h
            simp at h
        | some skin =>
            simp only [hc] at h
            by_cases hv : (!(skin == "") && containsKey grouped skin) = true
            · rw [if_pos hv] at h
              cases hgen : generate_html_by_filtered_attribute choice
                  (bucketD grouped skin) skin with
              | error e => simp only [hgen] at h; exact Except.noConfusion h
              | ok html => simp only [hgen] at h; simp at h
            · rw [if_neg hv] at h
              simp at h

/-- Witness for C10: the hypotheses discharged on concrete runs. -/
theorem C10_nonempty_grouping_witness :
    ([("", [recEmptySkin])] : List (String × List Value)) ≠ [] ∧
    StepResult.ret (generate_html_error_message "ax") ≠ StepResult.retryNoSkin :=
  ⟨C10_nonempty_grouping.1 [recEmptySkin] "characteristics" "skin_type" [("", [recEmptySkin])] rfl
     (by simp),
   C10_nonempty_grouping.2 "ax" [] ["x"] (.ret (generate_html_error_message "ax")) rfl⟩

/-- Counterexample to C10 as stated: with a non-empty fetched record
list whose only skin type is the empty string, selecting it drives the
loop into the `"Invalid skin type selected"` branch. -/
theorem C10_invalid_branch_counterexample :
    flowStep "ax" [recEmptySkin] [""] = .ok .retryInvalid ∧
    ([recEmptySkin] : List Value) ≠ [] := ⟨rfl, by simp⟩
